import Mathlib

/-!
Verification of the ioc-server audio pipeline (RobMeades/ioc-server).

This file gives a shallow embedding, in Lean 4, of the parts of the Go
source that the specification's claims talk about:

  * `audio-in.go`   — URTP decoding (`decodePcm`, `decodeUnicam`),
                      header validation (`verifyUrtpHeader`) and the TCP
                      byte-stream reassembly state machine
                      (`handleUrtpStream`);
  * `audio-process.go` — the gap-fill logic (`handleGap`,
                      `processDatagram`), the `OutputBufferState` handler
                      and the ID3 "PRIV" tag writer (`writeTag`);
  * `audio-out.go`  — the segment-list / `mediaSequenceNumber` state
                      machine of `operateAudioOut`.

Go machine integers are modelled as `Nat`/`Int` with explicit `% 2^w`
where overflow matters; code that can panic (nil-pointer dereference,
out-of-range slice index) is modelled with `Option`, `none` standing for
the panic.  Single-precision floating point (used by `writeTag`) is
modelled exactly as rational round-to-nearest-even with a 24-bit
significand.
-/

namespace IocServer

/-! ## Constants (audio-in.go, audio-process.go) -/

/-- Go: `BLOCK_DURATION_MS int = 20`. -/
def BLOCK_DURATION_MS : Nat := 20

/-- Go: `SAMPLING_FREQUENCY int = 16000`. -/
def SAMPLING_FREQUENCY : Nat := 16000

/-- Go: `SAMPLES_PER_BLOCK int = SAMPLING_FREQUENCY * BLOCK_DURATION_MS / 1000` (= 320). -/
def SAMPLES_PER_BLOCK : Nat := SAMPLING_FREQUENCY * BLOCK_DURATION_MS / 1000

/-- Go: `SAMPLES_PER_UNICAM_BLOCK int = SAMPLING_FREQUENCY / 1000` (= 16). -/
def SAMPLES_PER_UNICAM_BLOCK : Nat := SAMPLING_FREQUENCY / 1000

/-- Go: `UNICAM_CODED_SHIFT_SIZE_BITS int = 4`. -/
def UNICAM_CODED_SHIFT_SIZE_BITS : Nat := 4

/-- Go: `SYNC_BYTE byte = 0x5a`. -/
def SYNC_BYTE : Nat := 0x5a

/-- Go: `URTP_HEADER_SIZE int = 14`. -/
def URTP_HEADER_SIZE : Nat := 14

/-- Go: `URTP_SAMPLE_SIZE int = 2`. -/
def URTP_SAMPLE_SIZE : Nat := 2

/-- Go: `URTP_DATAGRAM_MAX_SIZE int = URTP_HEADER_SIZE + SAMPLES_PER_BLOCK * URTP_SAMPLE_SIZE`
(= 14 + 640 = 654).  Note this is the size of a whole datagram, header included. -/
def URTP_DATAGRAM_MAX_SIZE : Nat := URTP_HEADER_SIZE + SAMPLES_PER_BLOCK * URTP_SAMPLE_SIZE

/-- Go: `MAX_NUM_AUDIO_CODING_SCHEMES` (= 2, via iota). -/
def MAX_NUM_AUDIO_CODING_SCHEMES : Nat := 2

/-- Go: `MAX_GAP_FILL_MILLISECONDS int = 500`. -/
def MAX_GAP_FILL_MILLISECONDS : Nat := 500

/-! ## 16-bit sample arithmetic

Go's `int16` is two's-complement with wrap-around.  A 16-bit pattern
`n` (`0 ≤ n < 65536`) denotes the signed value `toInt16 n`; conversely
`toUInt16 x` is the 16-bit pattern of the signed value `x`. -/

/-- The signed value of the 16-bit pattern `n % 2^16` (two's complement). -/
def toInt16 (n : Nat) : Int :=
  if n % 65536 < 32768 then ((n % 65536 : Nat) : Int) else ((n % 65536 : Nat) : Int) - 65536

/-- The 16-bit pattern of a signed value (Go's conversion of an `int16` to bits). -/
def toUInt16 (x : Int) : Nat := (x % 65536).toNat

/-! ## decodePcm (audio-in.go lines 120-131)

```go
func decodePcm(audioDataPcm []byte) *[]int16 {
    audio := make([]int16, len(audioDataPcm) / URTP_SAMPLE_SIZE)
    x := 0
    for y := range audio {
        audio[y] = (int16(audioDataPcm[x]) << 8) + int16(audioDataPcm[x + 1])
        x += 2
    }
    return &audio
}
```
The loop consumes the payload bytes two at a time (an odd trailing byte
is ignored because `audio` has `len/2` entries).  For bytes `hi`, `lo`
(each `< 256`), `(int16(hi) << 8) + int16(lo)` wraps in `int16` and
equals the signed value of the 16-bit pattern `hi*256 + lo`. -/
def decodePcm : List Nat → List Int
  | hi :: lo :: rest => toInt16 (hi * 256 + lo) :: decodePcm rest
  | _ => []

/-- Spec-side definition for the round-trip direction of claim C6:
re-encode decoded samples as big-endian 16-bit bytes. -/
def encodePcmBigEndian (samples : List Int) : List Nat :=
  samples.flatMap (fun s => [toUInt16 s / 256, toUInt16 s % 256])

theorem toUInt16_toInt16 (n : Nat) (h : n < 65536) : toUInt16 (toInt16 n) = n := by
  unfold toUInt16 toInt16
  split <;> omega

/-- **C6**.  For every PCM_S16 payload consisting of `N` big-endian signed
16-bit samples (`2·N` bytes, each byte `< 256`), `decodePcm` produces
exactly `N` samples, and re-encoding the decoded samples back to
big-endian bytes yields the original payload (bit-identical round trip). -/
theorem decodePcm_roundtrip :
    ∀ (bytes : List Nat), (∀ b ∈ bytes, b < 256) → bytes.length % 2 = 0 →
    (decodePcm bytes).length = bytes.length / 2 ∧
    encodePcmBigEndian (decodePcm bytes) = bytes
  | [], _, _ => by simp [decodePcm, encodePcmBigEndian]
  | [b], _, he => by simp at he
  | hi :: lo :: rest, hb, he => by
    have hhi : hi < 256 := hb hi (by simp)
    have hlo : lo < 256 := hb lo (by simp)
    have hrest : ∀ b ∈ rest, b < 256 := fun b hbm => hb b (by simp [hbm])
    have he' : rest.length % 2 = 0 := by
      simp only [List.length_cons] at he
      omega
    obtain ⟨ihl, ihe⟩ := decodePcm_roundtrip rest hrest he'
    constructor
    · simp [decodePcm, ihl]
      omega
    · have hn : hi * 256 + lo < 65536 := by omega
      simp [decodePcm, encodePcmBigEndian] at ihe ⊢
      refine ⟨?_, ?_, ihe⟩
      · rw [toUInt16_toInt16 _ hn]
        omega
      · rw [toUInt16_toInt16 _ hn]
        omega

/-- Witness for C6 at the concrete payload `[0x01, 0x00, 0xFF, 0xFE]`
(samples `256` and `-258`). -/
theorem decodePcm_roundtrip_witness :
    (decodePcm [1, 0, 0xFF, 0xFE]).length = 2 ∧
    encodePcmBigEndian (decodePcm [1, 0, 0xFF, 0xFE]) = [1, 0, 0xFF, 0xFE] :=
  decodePcm_roundtrip [1, 0, 0xFF, 0xFE] (by decide) (by decide)

/-! ## decodeUnicam (audio-in.go lines 135-203)

```go
func decodeUnicam(audioDataUnicam []byte, sampleSizeBits int) *[]int16 {
    // Work out how much audio data is present
    for x := 0; x < len(audioDataUnicam) * 8; x += SAMPLES_PER_UNICAM_BLOCK * sampleSizeBits + UNICAM_CODED_SHIFT_SIZE_BITS {
        numBlocks++;
    }
    audio := make([]int16, numBlocks * SAMPLES_PER_UNICAM_BLOCK)
    for blockCount < numBlocks {
        for x := 0; x < SAMPLES_PER_UNICAM_BLOCK; x++ {
            audio[blockOffset + x] = int16(audioDataUnicam[sourceIndex]); sourceIndex++
        }
        if ((blockCount & 1) == 0) {
            shiftValues = audioDataUnicam[sourceIndex]; sourceIndex++; shift = shiftValues & 0x0F
        } else { shift = shiftValues >> 4 }
        for x := 0; x < SAMPLES_PER_UNICAM_BLOCK; x++ {
            sample = audio[blockOffset + x]
            if sample & (1 << 7) != 0 { /* sign extend bits 8..15 */ }
            FirPut(&deemphasis, float32(sample << shift))
            DeSquealFirPut(&desqueal, FirGet(&deemphasis))
            audio[blockOffset + x] = int16(DeSquealFirGet(&desqueal))
        }
        blockOffset += SAMPLES_PER_UNICAM_BLOCK; blockCount++
    }
    return &audio
}
```
`decodeUnicam` is always called with `sampleSizeBits = 8`, so one loop
step of the bit-accounting loop is `16·8 + 4 = 132` bits and the loop
counts `⌈8·len/132⌉` blocks.  Every slice index `audioDataUnicam[i]` is
modelled totally: an index `≥ len` yields `none`, standing for the Go
out-of-range panic.

The FIR de-emphasis and de-squeal filters (`FirPut`/`FirGet`,
`DeSquealFirPut`/`DeSquealFirGet`) live in a source file that is not part
of `src/`; they are modelled as an abstract stateful transformer
`filt : σ → Int → σ × Int` (state in, shifted sample value in; state out,
filtered sample value out, already truncated to `int16` as by Go's
`int16(...)` conversion).  The claims about `decodeUnicam` (sample count
and index bounds) hold for every such transformer. -/

/-- Sign extension of an 8-bit value held in an `int16`
(the `if sample & (1 << 7) != 0` loop). -/
def signExtend8 (b : Nat) : Int :=
  if b &&& 0x80 ≠ 0 then (b : Int) - 256 else (b : Int)

/-- `sample << shift` on the sign-extended byte, in wrapping `int16`. -/
def unicamShifted (b : Nat) (shift : Nat) : Int :=
  toInt16 (toUInt16 (signExtend8 b) <<< shift)

/-- Read `k` consecutive bytes `data[start .. start+k-1]`; `none` when any
index is out of range (Go panic). -/
def readRaw (data : List Nat) (start : Nat) : Nat → Option (List Nat)
  | 0 => some []
  | k + 1 =>
    match data.get? start with
    | none => none
    | some b => (readRaw data (start + 1) k).map (b :: ·)

/-- The inner per-block sample loop: shift/sign-extend each raw byte and
push it through the filters, threading the filter state. -/
def filterBlock {σ : Type} (filt : σ → Int → σ × Int) :
    σ → List Nat → Nat → σ × List Int
  | fs, [], _ => (fs, [])
  | fs, b :: bs, shift =>
    let r := filt fs (unicamShifted b shift)
    let rest := filterBlock filt r.1 bs shift
    (rest.1, r.2 :: rest.2)

/-- Number of iterations of the bit-accounting loop
`for x := 0; x < len*8; x += 132` — i.e. `⌈8·B / 132⌉`. -/
def numUnicamBlocks (B : Nat) : Nat := (B * 8 + 131) / 132

/-- The main block loop of `decodeUnicam`: arguments are the remaining
block count, `blockCount`, `sourceIndex`, the latched `shiftValues` byte
and the filter state. -/
def decodeUnicamBlocks {σ : Type} (filt : σ → Int → σ × Int) (data : List Nat) :
    Nat → Nat → Nat → Nat → σ → Option (List Int)
  | 0, _, _, _, _ => some []
  | numLeft + 1, blockCount, sourceIndex, shiftValues, fs =>
    match readRaw data sourceIndex SAMPLES_PER_UNICAM_BLOCK with
    | none => none
    | some raw =>
      let si := sourceIndex + SAMPLES_PER_UNICAM_BLOCK
      if blockCount % 2 = 0 then
        -- Even block: read a fresh shiftValues byte, use its low nibble
        match data.get? si with
        | none => none
        | some sv =>
          let r := filterBlock filt fs raw (sv % 16)
          match decodeUnicamBlocks filt data numLeft (blockCount + 1) (si + 1) sv r.1 with
          | none => none
          | some rest => some (r.2 ++ rest)
      else
        -- Odd block: reuse the high nibble of the latched shiftValues byte
        let r := filterBlock filt fs raw (shiftValues / 16)
        match decodeUnicamBlocks filt data numLeft (blockCount + 1) si shiftValues r.1 with
        | none => none
        | some rest => some (r.2 ++ rest)

/-- `decodeUnicam(audioDataUnicam, 8)`: `none` models a Go panic from an
out-of-range slice index. -/
def decodeUnicam {σ : Type} (filt : σ → Int → σ × Int) (fs : σ) (data : List Nat) :
    Option (List Int) :=
  decodeUnicamBlocks filt data (numUnicamBlocks data.length) 0 0 0 fs

/-- An identity filter transformer, used to evaluate `decodeUnicam` at
concrete inputs (the claims hold for every transformer). -/
def idFilter : Unit → Int → Unit × Int := fun _ x => ((), x)

/-- **C2** (code bug).  The claim — backed by the spec's bit-accounting
`⌊B·8 / 132⌋ × 16` — predicts `⌊16·8 / 132⌋ × 16 = 0` decoded samples for
a 16-byte UNICAM payload.  The code instead counts blocks with the loop
`for x := 0; x < len*8; x += 132`, i.e. `⌈8·B/132⌉ = 1` block, and then
reads `audioDataUnicam[16]`, one past the end of the payload: a Go
index-out-of-range panic (`none`), for every filter implementation. -/
theorem decodeUnicam_panics_B16 {σ : Type} (filt : σ → Int → σ × Int) (fs : σ) :
    decodeUnicam filt fs (List.replicate 16 0) = none ∧ 16 * 8 / 132 * 16 = 0 := by
  constructor
  · simp [decodeUnicam, decodeUnicamBlocks, numUnicamBlocks, readRaw,
          SAMPLES_PER_UNICAM_BLOCK, SAMPLING_FREQUENCY, List.replicate]
  · decide

/-- Witness for C2's failing-input theorem at a concrete filter: the
identity transformer with unit state. -/
theorem decodeUnicam_panics_B16_witness :
    decodeUnicam idFilter () (List.replicate 16 0) = none ∧ 16 * 8 / 132 * 16 = 0 :=
  decodeUnicam_panics_B16 idFilter ()

/-- **C10** (code bug).  For a 1-byte UNICAM payload — admitted by header
validation — the block-counting loop still counts `⌈8/132⌉ = 1` block, and
the sample-copy loop reads `audioDataUnicam[1]`, out of range: the claim
that `decodeUnicam` reads only indices `< B` for every admitted payload is
exactly what the code fails to do (modelled: the `none`/panic branch is
reached), for every filter implementation. -/
theorem decodeUnicam_oob_B1 {σ : Type} (filt : σ → Int → σ × Int) (fs : σ) :
    decodeUnicam filt fs [0] = none := by
  simp [decodeUnicam, decodeUnicamBlocks, numUnicamBlocks, readRaw,
        SAMPLES_PER_UNICAM_BLOCK, SAMPLING_FREQUENCY]

/-- Witness for C10's failing-input theorem at a concrete filter. -/
theorem decodeUnicam_oob_B1_witness : decodeUnicam idFilter () [0] = none :=
  decodeUnicam_oob_B1 idFilter ()

/-! ## verifyUrtpHeader (audio-in.go lines 256-280)

```go
func verifyUrtpHeader(header []byte) bool {
    var isHeader bool
    if len(header) >= URTP_HEADER_SIZE {
        if header[0] == SYNC_BYTE {
            if header[1] < MAX_NUM_AUDIO_CODING_SCHEMES {
                bytesOfPayload := ((int(header[URTP_NUM_BYTES_AUDIO_OFFSET]) << 8) + (int(header[URTP_NUM_BYTES_AUDIO_OFFSET + 1])))
                if bytesOfPayload <= URTP_DATAGRAM_MAX_SIZE {
                    isHeader = true;
                } ...
```
Note the payload-size bound the code uses is `URTP_DATAGRAM_MAX_SIZE`
(= 654, the size of a whole datagram), not the 640-byte maximum payload. -/
def verifyUrtpHeader (header : List Nat) : Bool :=
  if URTP_HEADER_SIZE ≤ header.length then
    if header.getD 0 0 = SYNC_BYTE then
      if header.getD 1 0 < MAX_NUM_AUDIO_CODING_SCHEMES then
        if header.getD 12 0 * 256 + header.getD 13 0 ≤ URTP_DATAGRAM_MAX_SIZE then
          true
        else false
      else false
    else false
  else false

/-! ## handleUrtpStream (audio-in.go lines 286-392): TCP reassembly -/

/-- Go: `URTP_SEQUENCE_NUMBER_SIZE int = 2`. -/
def URTP_SEQUENCE_NUMBER_SIZE : Nat := 2

/-- Go: `URTP_TIMESTAMP_SIZE int = 8`. -/
def URTP_TIMESTAMP_SIZE : Nat := 8

/-- Go: `URTP_PAYLOAD_SIZE_SIZE int = 2`. -/
def URTP_PAYLOAD_SIZE_SIZE : Nat := 2

/-- The URTP reassembly states (Go `URTP_STATE_*` constants). -/
inductive UrtpRState where
  | waitingSync
  | waitingAudioCoding
  | waitingSequenceNumber
  | waitingTimestamp
  | waitingPayloadSize
  | waitingPayload
deriving DecidableEq

/-- Go struct `TcpReassemblyData` (the `bytes.Buffer`s become byte lists). -/
structure TcpReassemblyData where
  state : UrtpRState
  byteCount : Nat
  payloadSize : Nat
  header : List Nat
  datagram : List Nat
deriving DecidableEq

/-- The fresh per-connection reassembly state
(`reassemblyData.State = URTP_STATE_WAITING_SYNC`, everything else zero). -/
def initReassembly : TcpReassemblyData :=
  { state := .waitingSync, byteCount := 0, payloadSize := 0, header := [], datagram := [] }

/-- `handleUrtpStream`: drain the buffered bytes through the state
machine.  Returns the final reassembly state and the list of complete
datagrams handed to `handleUrtpDatagram`, in order.  Each iteration of
the Go `for item, err = tcpBuffer.ReadByte(); ...` loop pops one byte and
— in `URTP_STATE_WAITING_PAYLOAD` — additionally bulk-reads
`min(tcpBuffer.Len(), PayloadSize)` bytes. -/
def runStream (st : TcpReassemblyData) : (data : List Nat) → TcpReassemblyData × List (List Nat)
  | [] => (st, [])
  | item :: buf =>
    match st.state with
    | .waitingSync =>
      if item = SYNC_BYTE then
        runStream { st with header := st.header ++ [item], state := .waitingAudioCoding } buf
      else
        runStream { st with header := [], state := .waitingSync } buf
    | .waitingAudioCoding =>
      if item < MAX_NUM_AUDIO_CODING_SCHEMES then
        runStream { st with header := st.header ++ [item], state := .waitingSequenceNumber } buf
      else
        runStream { st with header := [], state := .waitingSync } buf
    | .waitingSequenceNumber =>
      if URTP_SEQUENCE_NUMBER_SIZE ≤ st.byteCount + 1 then
        runStream { st with header := st.header ++ [item], byteCount := 0,
                            state := .waitingTimestamp } buf
      else
        runStream { st with header := st.header ++ [item], byteCount := st.byteCount + 1 } buf
    | .waitingTimestamp =>
      if URTP_TIMESTAMP_SIZE ≤ st.byteCount + 1 then
        runStream { st with header := st.header ++ [item], byteCount := 0,
                            state := .waitingPayloadSize } buf
      else
        runStream { st with header := st.header ++ [item], byteCount := st.byteCount + 1 } buf
    | .waitingPayloadSize =>
      let ps := st.payloadSize + item <<< (8 * (URTP_PAYLOAD_SIZE_SIZE - st.byteCount - 1))
      if URTP_PAYLOAD_SIZE_SIZE ≤ st.byteCount + 1 then
        if ps ≤ URTP_DATAGRAM_MAX_SIZE then
          if ps = 0 then
            -- Payload size zero: the header bytes are written into the
            -- datagram buffer but the machine goes straight back to
            -- waiting for sync (no emission).
            runStream { state := .waitingSync, byteCount := 0, payloadSize := ps,
                        header := [], datagram := st.datagram ++ (st.header ++ [item]) } buf
          else
            runStream { state := .waitingPayload, byteCount := 0, payloadSize := ps,
                        header := st.header ++ [item],
                        datagram := st.datagram ++ (st.header ++ [item]) } buf
        else
          runStream { state := .waitingSync, byteCount := 0, payloadSize := 0,
                      header := [], datagram := st.datagram } buf
      else
        runStream { st with header := st.header ++ [item], payloadSize := ps,
                            byteCount := st.byteCount + 1 } buf
    | .waitingPayload =>
      let ps := if 0 < st.payloadSize then st.payloadSize - 1 else st.payloadSize
      let bytesToRead := min buf.length ps
      let dg := (st.datagram ++ [item]) ++ buf.take bytesToRead
      if ps - bytesToRead = 0 then
        -- Payload complete: hand the datagram buffer to handleUrtpDatagram
        -- and reset the state machine.
        let r := runStream { state := .waitingSync, byteCount := st.byteCount, payloadSize := 0,
                             header := [], datagram := [] } (buf.drop bytesToRead)
        (r.1, dg :: r.2)
      else
        runStream { st with datagram := dg, payloadSize := ps - bytesToRead }
          (buf.drop bytesToRead)
termination_by data => data.length
decreasing_by
  all_goals simp_wf
  all_goals omega

/-- A complete 14-byte URTP header with sync byte `0x5A`, audio coding 0,
sequence number 0, timestamp 0 and declared payload size `p`
(big-endian in the last two bytes). -/
def testHeader (p : Nat) : List Nat :=
  [0x5a, 0, 0, 0, 0, 0, 0, 0, 0, 0, 0, 0, p / 256, p % 256]

/-- **C3** (counterexample).  The claim says header validation accepts a
declared payload size `p` exactly when `p ≤ 640`; but a header declaring
`p = 641` passes `verifyUrtpHeader`, and the TCP reassembler moves to the
payload-wait state instead of aborting to AwaitingSync. -/
theorem verifyUrtpHeader_accepts_641 :
    verifyUrtpHeader (testHeader 641) = true ∧ 640 < 641 ∧
    (runStream initReassembly (testHeader 641)).1.state = UrtpRState.waitingPayload := by
  refine ⟨by decide, by decide, ?_⟩
  simp [runStream, testHeader, initReassembly, SYNC_BYTE, MAX_NUM_AUDIO_CODING_SCHEMES,
        URTP_SEQUENCE_NUMBER_SIZE, URTP_TIMESTAMP_SIZE, URTP_PAYLOAD_SIZE_SIZE,
        URTP_DATAGRAM_MAX_SIZE, URTP_HEADER_SIZE, SAMPLES_PER_BLOCK, SAMPLING_FREQUENCY,
        BLOCK_DURATION_MS, URTP_SAMPLE_SIZE]

/-- **C3** (amended).  Header validation accepts a declared payload size
`p` exactly when `p ≤ URTP_DATAGRAM_MAX_SIZE = 654` (not 640): in
datagram mode `verifyUrtpHeader` succeeds iff `p ≤ 654`, and in TCP
stream mode the reassembler, on completing the two payload-size bytes,
proceeds (header copied to the datagram buffer, payload state unless
`p = 0`) iff `p ≤ 654`, and aborts to AwaitingSync, discarding the
header, iff `p > 654`. -/
theorem urtpPayloadBound (p : Nat) (hp : p < 65536) :
    (verifyUrtpHeader (testHeader p) = true ↔ p ≤ URTP_DATAGRAM_MAX_SIZE) ∧
    (p ≤ URTP_DATAGRAM_MAX_SIZE →
      (runStream initReassembly (testHeader p)).1.datagram = testHeader p ∧
      (runStream initReassembly (testHeader p)).1.payloadSize = p ∧
      (runStream initReassembly (testHeader p)).1.state =
        (if p = 0 then UrtpRState.waitingSync else UrtpRState.waitingPayload)) ∧
    (URTP_DATAGRAM_MAX_SIZE < p →
      (runStream initReassembly (testHeader p)).1.state = UrtpRState.waitingSync ∧
      (runStream initReassembly (testHeader p)).1.datagram = [] ∧
      (runStream initReassembly (testHeader p)).1.header = [] ∧
      (runStream initReassembly (testHeader p)).1.payloadSize = 0) := by
  have hps : p / 256 * 256 + p % 256 = p := by omega
  refine ⟨?_, ?_, ?_⟩
  · simp [verifyUrtpHeader, testHeader, URTP_HEADER_SIZE, SYNC_BYTE,
          MAX_NUM_AUDIO_CODING_SCHEMES, URTP_DATAGRAM_MAX_SIZE, SAMPLES_PER_BLOCK,
          SAMPLING_FREQUENCY, BLOCK_DURATION_MS, URTP_SAMPLE_SIZE]
    omega
  · intro hle
    norm_num [URTP_DATAGRAM_MAX_SIZE, SAMPLES_PER_BLOCK, SAMPLING_FREQUENCY,
              BLOCK_DURATION_MS, URTP_SAMPLE_SIZE, URTP_HEADER_SIZE] at hle
    simp [runStream, testHeader, initReassembly, SYNC_BYTE, MAX_NUM_AUDIO_CODING_SCHEMES,
          URTP_SEQUENCE_NUMBER_SIZE, URTP_TIMESTAMP_SIZE, URTP_PAYLOAD_SIZE_SIZE,
          URTP_DATAGRAM_MAX_SIZE, URTP_HEADER_SIZE, SAMPLES_PER_BLOCK, SAMPLING_FREQUENCY,
          BLOCK_DURATION_MS, URTP_SAMPLE_SIZE, Nat.shiftLeft_eq, hps]
    split_ifs <;> simp_all
  · intro hgt
    norm_num [URTP_DATAGRAM_MAX_SIZE, SAMPLES_PER_BLOCK, SAMPLING_FREQUENCY,
              BLOCK_DURATION_MS, URTP_SAMPLE_SIZE, URTP_HEADER_SIZE] at hgt
    simp [runStream, testHeader, initReassembly, SYNC_BYTE, MAX_NUM_AUDIO_CODING_SCHEMES,
          URTP_SEQUENCE_NUMBER_SIZE, URTP_TIMESTAMP_SIZE, URTP_PAYLOAD_SIZE_SIZE,
          URTP_DATAGRAM_MAX_SIZE, URTP_HEADER_SIZE, SAMPLES_PER_BLOCK, SAMPLING_FREQUENCY,
          BLOCK_DURATION_MS, URTP_SAMPLE_SIZE, Nat.shiftLeft_eq, hps]
    split_ifs <;> first
    | omega
    | simp_all

/-- Witness for the amended C3 theorem at `p = 641` (accepted: `≤ 654`). -/
theorem urtpPayloadBound_witness :
    (641 : Nat) < 65536 ∧
    ((verifyUrtpHeader (testHeader 641) = true ↔ 641 ≤ URTP_DATAGRAM_MAX_SIZE) ∧
     (641 ≤ URTP_DATAGRAM_MAX_SIZE →
       (runStream initReassembly (testHeader 641)).1.datagram = testHeader 641 ∧
       (runStream initReassembly (testHeader 641)).1.payloadSize = 641 ∧
       (runStream initReassembly (testHeader 641)).1.state =
         (if 641 = 0 then UrtpRState.waitingSync else UrtpRState.waitingPayload)) ∧
     (URTP_DATAGRAM_MAX_SIZE < 641 →
       (runStream initReassembly (testHeader 641)).1.state = UrtpRState.waitingSync ∧
       (runStream initReassembly (testHeader 641)).1.datagram = [] ∧
       (runStream initReassembly (testHeader 641)).1.header = [] ∧
       (runStream initReassembly (testHeader 641)).1.payloadSize = 0)) :=
  ⟨by decide, urtpPayloadBound 641 (by decide)⟩

/-- **C4** (code bug).  The claim (and spec) says a record declaring
`payloadSize = 0` is emitted — passed to the datagram handler — as soon
as its final header byte arrives, and that every record is emitted
exactly once.  The code instead copies the 14 header bytes into the
datagram buffer and returns to AwaitingSync without emitting; the stale
bytes are then prepended to the next record's emission.  Feeding a
complete zero-payload record emits nothing; feeding it followed by a
complete one-byte-payload record emits a single 29-byte blob containing
both records. -/
theorem runStream_zero_payload_no_emit :
    (runStream initReassembly (testHeader 0)).2 = [] ∧
    (runStream initReassembly (testHeader 0)).1.datagram = testHeader 0 ∧
    (runStream initReassembly (testHeader 0 ++ (testHeader 1 ++ [0xAB]))).2
      = [testHeader 0 ++ (testHeader 1 ++ [0xAB])] := by
  refine ⟨?_, ?_, ?_⟩ <;>
    simp [runStream, testHeader, initReassembly, SYNC_BYTE, MAX_NUM_AUDIO_CODING_SCHEMES,
          URTP_SEQUENCE_NUMBER_SIZE, URTP_TIMESTAMP_SIZE, URTP_PAYLOAD_SIZE_SIZE,
          URTP_DATAGRAM_MAX_SIZE, URTP_HEADER_SIZE, SAMPLES_PER_BLOCK, SAMPLING_FREQUENCY,
          BLOCK_DURATION_MS, URTP_SAMPLE_SIZE]

/-! ## handleGap / processDatagram (audio-process.go lines 162-223)

```go
func handleGap(gap int, previousDatagram * UrtpDatagram) {
    var y int
    if gap < SAMPLING_FREQUENCY * MAX_GAP_FILL_MILLISECONDS / 1000 {
        // TODO: for now just repeat the last sample we received
        fill := make([]byte, gap * URTP_SAMPLE_SIZE)
        if (previousDatagram != nil) && (len(*previousDatagram.Audio) > 0) {
            for w := 0; w < len(fill); w += URTP_SAMPLE_SIZE {
                x := (*previousDatagram.Audio)[y]
                for z := 0; z < URTP_SAMPLE_SIZE; z++ { fill[w + z] = byte(x >> ((uint(z) * 8))) }
                y++
                if y >= len(*previousDatagram.Audio) { y = 0 }
            }
        }
        pcmAudio.Write(fill)
    } else { log.Printf("Ignored a silly gap.\n") }
}

func processDatagram(datagram * UrtpDatagram, savedDatagramList * list.List) {
    ... previousDatagram = savedDatagramList.Front() ...
    if (previousDatagram != nil) && (datagram.SequenceNumber != previousDatagram.SequenceNumber + 1) {
        handleGap(int(datagram.SequenceNumber - previousDatagram.SequenceNumber) * SAMPLES_PER_BLOCK, previousDatagram)
    }
    if datagram.Audio != nil {
        ... append len(*datagram.Audio)*2 little-endian bytes to pcmAudio ...
        if len(*datagram.Audio) < SAMPLES_PER_BLOCK {
            handleGap(SAMPLES_PER_BLOCK - len(*datagram.Audio), previousDatagram)
        }
    } else { handleGap(SAMPLES_PER_BLOCK, previousDatagram) }
}
```
The `Audio` field of a `UrtpDatagram` is a Go pointer and may be nil
(header-only or unknown-coding record); `len(*previousDatagram.Audio)`
dereferences it, so a nil `Audio` on the previous datagram panics
(`none` in the embedding).  Sequence numbers are `uint16`; both the
`+ 1` and the subtraction wrap modulo 2^16. -/

/-- Go struct `UrtpDatagram` (sequence number and timestamp as `Nat`,
values `< 2^16` resp. `< 2^64`; `Audio *[]int16` as `Option`). -/
structure UrtpDatagram where
  sequenceNumber : Nat
  timestamp : Nat
  audio : Option (List Int)
deriving DecidableEq

/-- Little-endian bytes of one 16-bit sample: `byte(x >> (z*8))` for
`z = 0, 1`. -/
def sampleToLEBytes (x : Int) : List Nat :=
  [toUInt16 x % 256, toUInt16 x / 256]

/-- The gap-fill loop: `gap` samples taken cyclically from the previous
record's audio starting at index `y`, as little-endian bytes. -/
def fillBytes (prevAudio : List Int) : Nat → Nat → List Nat
  | 0, _ => []
  | g + 1, y =>
    sampleToLEBytes (prevAudio.getD y 0) ++
    fillBytes prevAudio g (if prevAudio.length ≤ y + 1 then 0 else y + 1)

/-- `handleGap`: append the fill for a `gap`-sample hole to the PCM
buffer.  `none` models the Go nil-pointer panic on
`len(*previousDatagram.Audio)` when the previous record has no audio. -/
def handleGap (gap : Nat) (previousDatagram : Option UrtpDatagram) (pcmAudio : List Nat) :
    Option (List Nat) :=
  if gap < SAMPLING_FREQUENCY * MAX_GAP_FILL_MILLISECONDS / 1000 then
    match previousDatagram with
    | some prev =>
      match prev.audio with
      | none => none
      | some p =>
        if 0 < p.length then some (pcmAudio ++ fillBytes p gap 0)
        else some (pcmAudio ++ List.replicate (gap * URTP_SAMPLE_SIZE) 0)
    | none => some (pcmAudio ++ List.replicate (gap * URTP_SAMPLE_SIZE) 0)
  else some pcmAudio

/-- The little-endian byte image of a record's audio
(the `audioBytes` loop of `processDatagram`). -/
def encodeAudioLE (audio : List Int) : List Nat :=
  audio.flatMap sampleToLEBytes

/-- `processDatagram`: sequence-number gap fill, audio append and
short/absent-block gap fill, on the PCM byte buffer. -/
def processDatagram (datagram : UrtpDatagram) (previousDatagram : Option UrtpDatagram)
    (pcmAudio : List Nat) : Option (List Nat) :=
  let afterSeqGap : Option (List Nat) :=
    match previousDatagram with
    | some prev =>
      if datagram.sequenceNumber ≠ (prev.sequenceNumber + 1) % 65536 then
        handleGap (((datagram.sequenceNumber + 65536 - prev.sequenceNumber) % 65536)
                     * SAMPLES_PER_BLOCK)
          previousDatagram pcmAudio
      else some pcmAudio
    | none => some pcmAudio
  match afterSeqGap with
  | none => none
  | some pcm1 =>
    match datagram.audio with
    | some a =>
      let pcm2 := pcm1 ++ encodeAudioLE a
      if a.length < SAMPLES_PER_BLOCK then
        handleGap (SAMPLES_PER_BLOCK - a.length) previousDatagram pcm2
      else some pcm2
    | none => handleGap SAMPLES_PER_BLOCK previousDatagram pcm1

theorem fillBytes_length (p : List Int) : ∀ (g y : Nat),
    (fillBytes p g y).length = g * URTP_SAMPLE_SIZE
  | 0, _ => rfl
  | g + 1, y => by
    simp [fillBytes, sampleToLEBytes, fillBytes_length p g, URTP_SAMPLE_SIZE]
    ring

theorem encodeAudioLE_length : ∀ (a : List Int),
    (encodeAudioLE a).length = a.length * URTP_SAMPLE_SIZE
  | [] => rfl
  | x :: xs => by
    simp [encodeAudioLE, sampleToLEBytes, URTP_SAMPLE_SIZE] at *
    have := encodeAudioLE_length xs
    simp [encodeAudioLE, URTP_SAMPLE_SIZE] at this
    omega

/-- Previous record used by the C1 counterexample: sequence number 0,
audio present (one sample). -/
def cexPrev : UrtpDatagram := ⟨0, 0, some [5]⟩

/-- New record used by the C1 counterexample: sequence number 2 (a jump
of `K = 2`), a full 320-sample block. -/
def cexNew : UrtpDatagram := ⟨2, 0, some (List.replicate 320 0)⟩

/-- The bytes `handleGap` writes for a `gap`-sample hole when the
previous record's audio block is present: its samples cyclically when it
is non-empty, zeros (the `make([]byte, ...)` initial content) when it is
empty. -/
def gapFill (p : List Int) (gap : Nat) : List Nat :=
  if 0 < p.length then fillBytes p gap 0
  else List.replicate (gap * URTP_SAMPLE_SIZE) 0

theorem gapFill_length (p : List Int) (gap : Nat) :
    (gapFill p gap).length = gap * URTP_SAMPLE_SIZE := by
  unfold gapFill
  split
  · exact fillBytes_length p gap 0
  · simp

theorem handleGap_some_audio (gap : Nat) (prev : UrtpDatagram) (pcm : List Nat)
    (p : List Int) (hp : prev.audio = some p) (hgap : gap < 8000) :
    handleGap gap (some prev) pcm = some (pcm ++ gapFill p gap) := by
  have hlim : gap < SAMPLING_FREQUENCY * MAX_GAP_FILL_MILLISECONDS / 1000 := by
    have : SAMPLING_FREQUENCY * MAX_GAP_FILL_MILLISECONDS / 1000 = 8000 := by decide
    omega
  rw [handleGap.eq_def, if_pos hlim]
  simp only [hp, gapFill]
  split <;> rfl

theorem processDatagram_gap_eq (d prev : UrtpDatagram) (pcm : List Nat)
    (a p : List Int) (K : Nat)
    (ha : d.audio = some a) (hp : prev.audio = some p)
    (hskip : d.sequenceNumber ≠ (prev.sequenceNumber + 1) % 65536)
    (hK : K = (d.sequenceNumber + 65536 - prev.sequenceNumber) % 65536)
    (hKlt : K * SAMPLES_PER_BLOCK < 8000) :
    processDatagram d (some prev) pcm =
      some (pcm ++ gapFill p (K * SAMPLES_PER_BLOCK) ++ encodeAudioLE a ++
            (if a.length < SAMPLES_PER_BLOCK
             then gapFill p (SAMPLES_PER_BLOCK - a.length) else [])) := by
  have hgap1 := handleGap_some_audio (K * SAMPLES_PER_BLOCK) prev pcm p hp hKlt
  rw [processDatagram.eq_def]
  simp only [ha, ← hK, if_pos hskip, hgap1]
  by_cases hlen : a.length < SAMPLES_PER_BLOCK
  · have hgap2 := handleGap_some_audio (SAMPLES_PER_BLOCK - a.length) prev
      (pcm ++ gapFill p (K * SAMPLES_PER_BLOCK) ++ encodeAudioLE a) p hp
      (by have : SAMPLES_PER_BLOCK = 320 := by decide
          omega)
    simp only [if_pos hlen, List.append_assoc] at hgap2 ⊢
    rw [hgap2]
  · simp only [if_neg hlen, List.append_assoc, List.append_nil]

theorem processDatagram_gap_none (d prev : UrtpDatagram) (pcm : List Nat) (K : Nat)
    (hpn : prev.audio = none)
    (hskip : d.sequenceNumber ≠ (prev.sequenceNumber + 1) % 65536)
    (hK : K = (d.sequenceNumber + 65536 - prev.sequenceNumber) % 65536)
    (hKlt : K * SAMPLES_PER_BLOCK < 8000) :
    processDatagram d (some prev) pcm = none := by
  have hlim : K * SAMPLES_PER_BLOCK < SAMPLING_FREQUENCY * MAX_GAP_FILL_MILLISECONDS / 1000 := by
    have : SAMPLING_FREQUENCY * MAX_GAP_FILL_MILLISECONDS / 1000 = 8000 := by decide
    omega
  have hgap1 : handleGap (K * SAMPLES_PER_BLOCK) (some prev) pcm = none := by
    rw [handleGap.eq_def, if_pos hlim]
    simp [hpn]
  rw [processDatagram.eq_def]
  simp only [← hK, if_pos hskip, hgap1]

/-- **C1** (counterexample).  For a jump of `K = 2` with a full
320-sample block, the claim predicts `K·320 − 320 = 320` fill samples
before the audio, hence `(320 + 320)·2 = 1280` PCM bytes in total; the
code inserts `K·320 = 640` fill samples, hence `(640 + 320)·2 = 1920`
bytes in total. -/
theorem processDatagram_gap_cex :
    (processDatagram cexNew (some cexPrev) []).map List.length = some 1920 ∧
    ((2 * 320 - 320) + 320) * 2 = 1280 ∧ (1920 : Nat) ≠ 1280 := by
  refine ⟨?_, by decide, by decide⟩
  have h := processDatagram_gap_eq cexNew cexPrev [] (List.replicate 320 0) [5] 2
    rfl rfl (by decide) (by decide) (by decide)
  rw [h]
  have hf := gapFill_length [(5 : Int)] (2 * SAMPLES_PER_BLOCK)
  have he := encodeAudioLE_length (List.replicate 320 (0 : Int))
  simp only [hf, he, List.length_replicate, List.length_append, List.length_nil,
             Option.map_some']
  norm_num [SAMPLES_PER_BLOCK, SAMPLING_FREQUENCY, BLOCK_DURATION_MS, URTP_SAMPLE_SIZE]

/-- **C1** (amended).  For every decoded URTP record that is not the
first and carries decoded audio `a`, if its sequence number
`seq ≠ prev + 1 (mod 2^16)` and the jump `K = (seq − prev) mod 2^16`
satisfies `0 < K·320 < 8000`, then: whenever the previous record's audio
block is present (with any content, empty included), exactly `K·320` fill
samples (not `K·320 − len(audio)`) are inserted into the PCM timeline
before the new record's audio is appended, with a further
`320 − len(audio)` fill samples after the audio when the block is short;
and whenever the previous record's audio block is absent (nil), the code
panics on the nil dereference in `handleGap` and nothing is written. -/
theorem processDatagram_seq_gap (d prev : UrtpDatagram) (pcm : List Nat)
    (a : List Int) (K : Nat)
    (ha : d.audio = some a)
    (hskip : d.sequenceNumber ≠ (prev.sequenceNumber + 1) % 65536)
    (hK : K = (d.sequenceNumber + 65536 - prev.sequenceNumber) % 65536)
    (hKpos : 0 < K * SAMPLES_PER_BLOCK)
    (hKlt : K * SAMPLES_PER_BLOCK < 8000) :
    (∀ p, prev.audio = some p →
      processDatagram d (some prev) pcm =
        some (pcm ++ gapFill p (K * SAMPLES_PER_BLOCK) ++ encodeAudioLE a ++
              (if a.length < SAMPLES_PER_BLOCK
               then gapFill p (SAMPLES_PER_BLOCK - a.length) else [])) ∧
      (gapFill p (K * SAMPLES_PER_BLOCK)).length = K * SAMPLES_PER_BLOCK * URTP_SAMPLE_SIZE) ∧
    (prev.audio = none → processDatagram d (some prev) pcm = none) :=
  ⟨fun p hp =>
    ⟨processDatagram_gap_eq d prev pcm a p K ha hp hskip hK hKlt,
     gapFill_length p (K * SAMPLES_PER_BLOCK)⟩,
   fun hpn => processDatagram_gap_none d prev pcm K hpn hskip hK hKlt⟩

/-- Witness for the amended C1 theorem: previous record seq 0 with audio
`[5]`, new record seq 2 with a 320-sample block (`K = 2`,
`0 < 640 < 8000`), and the nil-audio case at a previous record without
audio. -/
theorem processDatagram_seq_gap_witness :
    (processDatagram cexNew (some cexPrev) [] =
      some ([] ++ gapFill [5] (2 * SAMPLES_PER_BLOCK) ++
            encodeAudioLE (List.replicate 320 0) ++
            (if (List.replicate 320 (0 : Int)).length < SAMPLES_PER_BLOCK
             then gapFill [5] (SAMPLES_PER_BLOCK - (List.replicate 320 (0 : Int)).length)
             else [])) ∧
     (gapFill [5] (2 * SAMPLES_PER_BLOCK)).length =
       2 * SAMPLES_PER_BLOCK * URTP_SAMPLE_SIZE) ∧
    processDatagram cexNew (some ⟨0, 0, none⟩) [] = none :=
  ⟨(processDatagram_seq_gap cexNew cexPrev [] (List.replicate 320 0) 2
      rfl (by decide) (by decide) (by decide) (by decide)).1 [5] rfl,
   (processDatagram_seq_gap cexNew ⟨0, 0, none⟩ [] (List.replicate 320 0) 2
      rfl (by decide) (by decide) (by decide) (by decide)).2 rfl⟩

/-- Previous record whose audio pointer is nil (e.g. a header-only or
unknown-coding record), used by the C9 counterexample. -/
def cexPrevNilAudio : UrtpDatagram := ⟨1, 0, none⟩

/-- **C9** (counterexample).  The claim says that in every
non-silly-gap case exactly `g` fill samples are written regardless of the
previous record's content; but when the previous record exists with an
absent (nil) audio block, `handleGap` dereferences the nil pointer and
panics (`none`): no fill is written at all. -/
theorem handleGap_nil_audio_cex :
    handleGap 320 (some cexPrevNilAudio) [] = none ∧ 0 < 320 ∧ 320 < 8000 := by
  refine ⟨?_, by decide, by decide⟩
  simp [handleGap, cexPrevNilAudio, SAMPLING_FREQUENCY, MAX_GAP_FILL_MILLISECONDS]

/-- **C9** (amended).  For a gap of `g` samples (`0 < g < 8000`): if no
previous record exists, or the previous record's audio block is present
with length 0, the fill written to the PCM timeline is exactly `g`
zero-valued 16-bit samples; whenever the previous record's audio block is
present the fill written is exactly `g` samples (`2·g` bytes) regardless
of its content; but when the previous record exists with an absent audio
block the code panics (nil dereference) and nothing is written. -/
theorem handleGap_fill (gap : Nat) (prev : Option UrtpDatagram) (pcm : List Nat)
    (h0 : 0 < gap) (h1 : gap < 8000) :
    (prev = none →
      handleGap gap prev pcm = some (pcm ++ List.replicate (gap * URTP_SAMPLE_SIZE) 0)) ∧
    (∀ d, prev = some d → d.audio = some [] →
      handleGap gap prev pcm = some (pcm ++ List.replicate (gap * URTP_SAMPLE_SIZE) 0)) ∧
    (∀ d p, prev = some d → d.audio = some p →
      ∃ fill, handleGap gap prev pcm = some (pcm ++ fill) ∧
        fill.length = gap * URTP_SAMPLE_SIZE) ∧
    (∀ d, prev = some d → d.audio = none → handleGap gap prev pcm = none) := by
  have hlim : gap < SAMPLING_FREQUENCY * MAX_GAP_FILL_MILLISECONDS / 1000 := by
    simp [SAMPLING_FREQUENCY, MAX_GAP_FILL_MILLISECONDS]
    omega
  refine ⟨?_, ?_, ?_, ?_⟩
  · rintro rfl
    simp [handleGap, if_pos hlim]
  · rintro d rfl hd
    simp [handleGap, if_pos hlim, hd]
  · rintro d p rfl hd
    rw [handleGap, if_pos hlim, hd]
    by_cases hp : 0 < p.length
    · exact ⟨fillBytes p gap 0, by simp [if_pos hp], fillBytes_length p gap 0⟩
    · exact ⟨List.replicate (gap * URTP_SAMPLE_SIZE) 0, by simp [if_neg hp], by simp⟩
  · rintro d rfl hd
    simp [handleGap, if_pos hlim, hd]

/-- Witness for the amended C9 theorem at `g = 320` for the three
defined cases: no previous record, empty audio block, non-empty audio
block. -/
theorem handleGap_fill_witness :
    (0 : Nat) < 320 ∧ (320 : Nat) < 8000 ∧
    handleGap 320 none [] = some ([] ++ List.replicate (320 * URTP_SAMPLE_SIZE) 0) ∧
    (∃ fill, handleGap 320 (some ⟨0, 0, some [9]⟩) [] = some ([] ++ fill) ∧
      fill.length = 320 * URTP_SAMPLE_SIZE) :=
  ⟨by decide, by decide,
   (handleGap_fill 320 none [] (by decide) (by decide)).1 rfl,
   ((handleGap_fill 320 (some ⟨0, 0, some [9]⟩) [] (by decide) (by decide)).2.2.1
     ⟨0, 0, some [9]⟩ [9] rfl rfl)⟩

/-! ## The OutputBufferState message handler (audio-process.go lines 426-440)

```go
case *OutputBufferState:
{
    if (minOutputBufferedAudio > message.BufferSize / 2) {
        minOutputBufferedAudio = message.BufferSize / 2
    }
    if (message.Buffered < MIN_OUTPUT_BUFFERED_AUDIO) && (mp3Handle != nil) {
        buffer := make([]byte, (mp3FileSamples / mp3SamplesPerFrame *  mp3SamplesPerFrame) * URTP_SAMPLE_SIZE)
        pcmAudio.Write(buffer)
    }
}
```
Durations (`time.Duration`) are nanosecond counts, modelled as `Int`.
Note the comparison deciding the injection uses the *constant*
`MIN_OUTPUT_BUFFERED_AUDIO`, not the freshly adjusted variable
`minOutputBufferedAudio`. -/

/-- Go: `MIN_OUTPUT_BUFFERED_AUDIO time.Duration = time.Millisecond * 1000`
(nanoseconds). -/
def MIN_OUTPUT_BUFFERED_AUDIO : Int := 1000 * 1000000

/-- The `OutputBufferState` branch: returns the updated
`minOutputBufferedAudio` and the PCM buffer.  (`bufferSize / 2` is Go
`int64` division; both sides agree with Lean's on the non-negative
durations involved.) -/
def handleOutputBufferState (minOutputBufferedAudio : Int) (buffered bufferSize : Int)
    (mp3HandleOpen : Bool) (mp3FileSamples mp3SamplesPerFrame : Nat)
    (pcmAudio : List Nat) : Int × List Nat :=
  let newMin := if minOutputBufferedAudio > bufferSize / 2 then bufferSize / 2
                else minOutputBufferedAudio
  if buffered < MIN_OUTPUT_BUFFERED_AUDIO ∧ mp3HandleOpen then
    (newMin,
     pcmAudio ++
       List.replicate ((mp3FileSamples / mp3SamplesPerFrame * mp3SamplesPerFrame)
         * URTP_SAMPLE_SIZE) 0)
  else (newMin, pcmAudio)

/-- **C5** (code bug).  The claim — matching the evident intent of the
dead variable `minOutputBufferedAudio` — says silence is injected iff
`Buffered < min(1000 ms, BufferSize/2)`.  The code compares against the
constant `MIN_OUTPUT_BUFFERED_AUDIO` instead: with `BufferSize = 1000 ms`
(adjusted threshold `500 ms`) and `Buffered = 700 ms`, the claim says no
injection, yet the code injects one segment's worth
(`13·1152 = 14976` samples for the default 1000 ms segment) of silence —
even while it correctly computes and stores the adjusted threshold it
never consults. -/
theorem outputBufferState_threshold_bug :
    (handleOutputBufferState MIN_OUTPUT_BUFFERED_AUDIO (700 * 1000000) (1000 * 1000000)
        true 16000 1152 []).1 = 500 * 1000000 ∧
    (handleOutputBufferState MIN_OUTPUT_BUFFERED_AUDIO (700 * 1000000) (1000 * 1000000)
        true 16000 1152 []).2.length = 13 * 1152 * URTP_SAMPLE_SIZE ∧
    ¬((700 * 1000000 : Int) < min MIN_OUTPUT_BUFFERED_AUDIO ((1000 * 1000000 : Int) / 2)) := by
  refine ⟨?_, ?_, by decide⟩ <;>
  · unfold handleOutputBufferState
    rw [if_pos (by constructor <;> decide)]
    norm_num [ MIN_OUTPUT_BUFFERED_AUDIO, URTP_SAMPLE_SIZE]

/-! ## writeTag and the ID3 "PRIV" prefix (audio-process.go lines 72-96, 254-277)

```go
var id3Prefix string = "ID3\x04\x00\x00\x00\x00\x00\x3fPRIV\x00\x00\x00\x35\x00\x00com.apple.streaming.transportStreamTimestamp\x00"

func writeTag(mp3Handle *os.File, offset time.Duration) error {
    _, err := mp3Handle.WriteString(id3Prefix)
    ...
    timestampUint64 = uint64(float32(offset) / float32(time.Microsecond) * float32(90000) / float32(1000000))
    err := binary.Write(&timestampBytes, binary.BigEndian, timestampUint64)
    ...
    _, err = timestampBytes.WriteTo(mp3Handle)
}
```
The timestamp is computed in *single precision*: each Go operation on
`float32` values rounds its exact result to the nearest representable
`float32` (ties to even, 24-bit significand; all values involved are in
the normal range).  That rounding is modelled exactly on `ℚ`. -/

/-- Fuelled binary logarithm (the fuel only bounds the recursion; with
fuel `≥ n` it is `⌊log₂ n⌋` for `n ≥ 1`, and `0` for `n = 0`). -/
def log2f : Nat → Nat → Nat
  | 0, _ => 0
  | fuel + 1, n => if 2 ≤ n then log2f fuel (n / 2) + 1 else 0

/-- `⌊log₂ n⌋` (0 for `n = 0`), kernel-computable. -/
def natLog2 (n : Nat) : Nat := log2f n n

/-- The binade of the positive fraction `n / d`: the greatest `e` with
`2^e ≤ n/d` (compared by cross-multiplication). -/
def ratExpF (n d : Nat) : Int :=
  let g : Int := (natLog2 n : Int) - (natLog2 d : Int)
  if (if 0 ≤ g then 2 ^ g.toNat * d ≤ n else d ≤ 2 ^ (-g).toNat * n) then g else g - 1

/-- Round the non-negative fraction `n / d` to an integer, ties to even. -/
def roundHalfEvenF (n d : Nat) : Nat :=
  if 2 * (n % d) < d then n / d
  else if d < 2 * (n % d) then n / d + 1
  else if n / d % 2 = 0 then n / d else n / d + 1

/-- IEEE-754 binary32 rounding (round to nearest, ties to even, 24-bit
significand, normal range) of the non-negative fraction `n / d`,
returned as a fraction (numerator, denominator). -/
def rnd32F (n d : Nat) : Nat × Nat :=
  if n = 0 then (0, 1)
  else
    let e := ratExpF n d
    let s : Nat × Nat :=
      if 0 ≤ 23 - e then (n * 2 ^ (23 - e).toNat, d) else (n, d * 2 ^ (e - 23).toNat)
    let m := roundHalfEvenF s.1 s.2
    if 0 ≤ e - 23 then (m * 2 ^ (e - 23).toNat, 1) else (m, 2 ^ (23 - e).toNat)

/-- `uint64(float32(offset) / float32(time.Microsecond) * float32(90000) / float32(1000000))`:
the Go single-precision evaluation, left-associated, with every operation
rounded to binary32 and the final conversion truncating toward zero.
`offsetNs` is the `time.Duration` in nanoseconds.  (The literals 1000,
90000 and 1000000 are exactly representable in binary32, so
`float32(time.Microsecond)` etc. are the literals themselves.) -/
def goTimestampF32 (offsetNs : Nat) : Nat :=
  let a := rnd32F offsetNs 1
  let b := rnd32F a.1 (a.2 * 1000)
  let c := rnd32F (b.1 * 90000) b.2
  let e := rnd32F c.1 (c.2 * 1000000)
  e.1 / e.2

/-- The byte content of the Go string `id3Prefix` (a transcription of the
literal, escape by escape). -/
def id3Prefix : List Nat :=
  [0x49, 0x44, 0x33, 0x04, 0x00, 0x00, 0x00, 0x00, 0x00, 0x3f,
   0x50, 0x52, 0x49, 0x56, 0x00, 0x00, 0x00, 0x35, 0x00, 0x00] ++
  ("com.apple.streaming.transportStreamTimestamp".toList.map Char.toNat) ++ [0x00]

/-- The claim's enumeration of the fixed prefix: `"ID3"`, version
`0x04 0x00`, flags `0x00`, synchsafe size `0x3F`, frame id `"PRIV"`,
frame size `0x35`, frame flags `0x0000`, the owner string followed by a
NUL byte. -/
def id3PrefixSpec : List Nat :=
  ("ID3".toList.map Char.toNat) ++ [0x04, 0x00] ++ [0x00] ++ [0x00, 0x00, 0x00, 0x3f] ++
  ("PRIV".toList.map Char.toNat) ++ [0x00, 0x00, 0x00, 0x35] ++ [0x00, 0x00] ++
  ("com.apple.streaming.transportStreamTimestamp".toList.map Char.toNat) ++ [0x00]

/-- `binary.Write(_, binary.BigEndian, u)` for a `uint64`: eight
big-endian bytes. -/
def be64 (n : Nat) : List Nat :=
  [n / 2 ^ 56 % 256, n / 2 ^ 48 % 256, n / 2 ^ 40 % 256, n / 2 ^ 32 % 256,
   n / 2 ^ 24 % 256, n / 2 ^ 16 % 256, n / 2 ^ 8 % 256, n % 256]

/-- The bytes `writeTag` puts at the start of a segment file. -/
def writeTagBytes (offsetNs : Nat) : List Nat :=
  id3Prefix ++ be64 (goTimestampF32 offsetNs)

/-- **C7** (counterexample).  At `offset = 12 168 000 µs` (13 segments of
936 ms), the exact value `offset_µs · 90000 / 1 000 000 = 1 095 120` is an
integer, but the single-precision chain the code evaluates yields
`1 095 119`: the written timestamp is not `offset · 90000 / 1 000 000`. -/
theorem writeTag_timestamp_cex :
    goTimestampF32 (12168000 * 1000) = 1095119 ∧
    12168000 * 90000 / 1000000 = 1095120 ∧ (1095119 : Nat) ≠ 1095120 :=
  ⟨by decide, by decide, by decide⟩

/-- **C7** (amended).  Every closed segment file begins with the fixed
bytes `"ID3"`, `0x04 0x00`, `0x00`, synchsafe size `0x3F`, `"PRIV"`,
frame size `0x35`, frame flags `0x0000`, the owner string
`"com.apple.streaming.transportStreamTimestamp"` plus a NUL byte
(65 bytes in all), followed by exactly 8 bytes of big-endian timestamp —
whose value is the single-precision (float32) evaluation of
`offset · 90000 / 1 000 000` on the 90 kHz clock, which can differ from
the exact quotient for large offsets. -/
theorem writeTag_layout (offsetNs : Nat) :
    writeTagBytes offsetNs = id3PrefixSpec ++ be64 (goTimestampF32 offsetNs) ∧
    id3PrefixSpec.length = 65 ∧ (be64 (goTimestampF32 offsetNs)).length = 8 := by
  refine ⟨?_, by decide, by simp [be64]⟩
  unfold writeTagBytes
  have : id3Prefix = id3PrefixSpec := by decide
  rw [this]

/-! ## The segment list and mediaSequenceNumber (audio-out.go lines 214-320)

`operateAudioOut` owns `mp3FileList` and `mediaSequenceNumber` and
mutates them from three places:

* the 100 ms ticker (lines 244-283): for each file in list order,
  if `usable` and `time.Now().Sub(timestamp) > mp3UsableAge` then
  `usable = false; mediaSequenceNumber++`; if `!usable` and older than
  `mp3RemovableAge` then `removable = true`; if `removable`, try
  `os.Remove` and drop the entry on success;
* `*Mp3AudioFile` control messages (lines 290-295): `PushBack`;
* `*Reset` control messages (lines 296-316): try `os.Remove` on every
  entry, drop it on success, then `mediaSequenceNumber = 0`.

The three are serialised here as a single event sequence.  Time is an
absolute `Int` (nanoseconds); the success of each `os.Remove` is an
oracle `removeOk : Nat → Bool` indexed by the position in the iteration. -/

/-- Go struct `Mp3AudioFile`. -/
structure Mp3AudioFile where
  fileName : String
  title : String
  timestamp : Int
  duration : Int
  usable : Bool
  removable : Bool

/-- One interaction with the publisher state. -/
inductive AudioOutEvent where
  | tick (now : Int) (removeOk : Nat → Bool)
  | newSegment (seg : Mp3AudioFile)
  | reset (removeOk : Nat → Bool)

/-- Whether an event is a `Reset` control message. -/
def AudioOutEvent.isReset : AudioOutEvent → Bool
  | .reset _ => true
  | _ => false

/-- The publisher state touched by the claim: the file list (in creation
order) and `mediaSequenceNumber`. -/
structure AudioOutState where
  files : List Mp3AudioFile
  mediaSequenceNumber : Nat

/-- One pass of the 100 ms ticker over the file list: returns the new
list and the number of `usable → unusable` transitions (each of which
does `mediaSequenceNumber++` in the source). -/
def tickFiles (usableAge removableAge now : Int) (removeOk : Nat → Bool) :
    Nat → List Mp3AudioFile → List Mp3AudioFile × Nat
  | _, [] => ([], 0)
  | idx, f :: rest =>
    let aged := f.usable ∧ usableAge < now - f.timestamp
    let f1 : Mp3AudioFile := if aged then { f with usable := false } else f
    let f2 : Mp3AudioFile :=
      if ¬f1.usable ∧ removableAge < now - f1.timestamp then { f1 with removable := true }
      else f1
    let r := tickFiles usableAge removableAge now removeOk (idx + 1) rest
    if f2.removable ∧ removeOk idx then (r.1, (if aged then 1 else 0) + r.2)
    else (f2 :: r.1, (if aged then 1 else 0) + r.2)

/-- The `Reset` handler's sweep: every entry whose `os.Remove` succeeds
is dropped. -/
def resetFiles (removeOk : Nat → Bool) : Nat → List Mp3AudioFile → List Mp3AudioFile
  | _, [] => []
  | idx, f :: rest =>
    if removeOk idx then resetFiles removeOk (idx + 1) rest
    else f :: resetFiles removeOk (idx + 1) rest

/-- One event against the publisher state. -/
def audioOutStep (usableAge removableAge : Int) (st : AudioOutState) :
    AudioOutEvent → AudioOutState
  | .tick now ok =>
    let r := tickFiles usableAge removableAge now ok 0 st.files
    { files := r.1, mediaSequenceNumber := st.mediaSequenceNumber + r.2 }
  | .newSegment seg => { st with files := st.files ++ [seg] }
  | .reset ok =>
    { files := resetFiles ok 0 st.files, mediaSequenceNumber := 0 }

/-- A sequence of events against the publisher state. -/
def audioOutRun (usableAge removableAge : Int) (st : AudioOutState) :
    List AudioOutEvent → AudioOutState
  | [] => st
  | e :: es => audioOutRun usableAge removableAge (audioOutStep usableAge removableAge st e) es

/-- Spec-side count: the segments that age out (usable and strictly older
than the playlist window) in one tick at time `now`. -/
def agedThisTick (usableAge now : Int) (files : List Mp3AudioFile) : Nat :=
  (files.filter (fun f => f.usable && decide (usableAge < now - f.timestamp))).length

/-- Spec-side count: the transitions one event causes (only ticks age
segments out). -/
def eventAged (usableAge : Int) (files : List Mp3AudioFile) : AudioOutEvent → Nat
  | .tick now _ => agedThisTick usableAge now files
  | _ => 0

/-- Spec-side count: the total number of `usable → unusable` transitions
over an event sequence. -/
def totalAged (usableAge removableAge : Int) (st : AudioOutState) :
    List AudioOutEvent → Nat
  | [] => 0
  | e :: es =>
    eventAged usableAge st.files e +
    totalAged usableAge removableAge (audioOutStep usableAge removableAge st e) es

theorem tickFiles_count (usableAge removableAge now : Int) (removeOk : Nat → Bool) :
    ∀ (idx : Nat) (files : List Mp3AudioFile),
    (tickFiles usableAge removableAge now removeOk idx files).2 =
      agedThisTick usableAge now files
  | _, [] => rfl
  | idx, f :: rest => by
    have ih := tickFiles_count usableAge removableAge now removeOk (idx + 1) rest
    by_cases haged : f.usable ∧ usableAge < now - f.timestamp
    · have hb : (f.usable && decide (usableAge < now - f.timestamp)) = true := by
        simp [haged.1, haged.2]
      simp only [tickFiles, agedThisTick, List.filter_cons, hb, if_pos haged, if_true]
      split <;> simp [apply_ite Prod.snd, ih, agedThisTick] <;> omega
    · have hb : (f.usable && decide (usableAge < now - f.timestamp)) = false := by
        by_cases hu : f.usable = true
        · simp only [hu, Bool.true_and, decide_eq_false_iff_not]
          exact fun hlt => haged ⟨hu, hlt⟩
        · simp only [Bool.not_eq_true] at hu
          simp [hu]
      simp only [tickFiles, agedThisTick, List.filter_cons, hb, if_neg haged]
      split <;> simp [apply_ite Prod.snd, ih, agedThisTick]

theorem audioOutStep_msn (usableAge removableAge : Int) (st : AudioOutState)
    (e : AudioOutEvent) (hne : e.isReset = false) :
    (audioOutStep usableAge removableAge st e).mediaSequenceNumber
      = st.mediaSequenceNumber + eventAged usableAge st.files e := by
  cases e with
  | tick now rok =>
    simp only [audioOutStep, eventAged]
    rw [tickFiles_count]
  | newSegment seg => simp [audioOutStep, eventAged]
  | reset rok => simp [AudioOutEvent.isReset] at hne

theorem audioOutRun_msn (usableAge removableAge : Int) :
    ∀ (evs : List AudioOutEvent) (st : AudioOutState),
    (∀ e ∈ evs, e.isReset = false) →
    (audioOutRun usableAge removableAge st evs).mediaSequenceNumber
      = st.mediaSequenceNumber + totalAged usableAge removableAge st evs
  | [], st, _ => by simp [audioOutRun, totalAged]
  | e :: es, st, hnr => by
    have hnr' : ∀ e' ∈ es, e'.isReset = false := fun e' he' => hnr e' (by simp [he'])
    rw [audioOutRun, totalAged,
        audioOutRun_msn usableAge removableAge es _ hnr',
        audioOutStep_msn usableAge removableAge st e (hnr e (by simp))]
    omega

/-- **C8**.  Between any two Resets `mediaSequenceNumber` is monotonically
non-decreasing and grows by exactly the number of segments that
transition from usable to unusable (age out); processing a Reset sets it
to 0.  Hence, from any state with `mediaSequenceNumber = 0` (the initial
state, or the state just after a Reset), after any reset-free event
sequence `mediaSequenceNumber` equals the number of segments that have
aged out since. -/
theorem mediaSequenceNumber_spec (usableAge removableAge : Int) (st : AudioOutState)
    (evs : List AudioOutEvent) (ok : Nat → Bool)
    (hnr : ∀ e ∈ evs, e.isReset = false) :
    (audioOutRun usableAge removableAge st evs).mediaSequenceNumber
      = st.mediaSequenceNumber + totalAged usableAge removableAge st evs ∧
    st.mediaSequenceNumber ≤ (audioOutRun usableAge removableAge st evs).mediaSequenceNumber ∧
    (audioOutStep usableAge removableAge st (.reset ok)).mediaSequenceNumber = 0 := by
  have h := audioOutRun_msn usableAge removableAge evs st hnr
  exact ⟨h, by omega, rfl⟩

/-- Witness for C8: one segment created at time 0, window 7; a tick at
time 10 ages it out, so `mediaSequenceNumber` goes from 0 to 1; a Reset
zeroes it. -/
theorem mediaSequenceNumber_spec_witness :
    (∀ e ∈ [AudioOutEvent.tick 10 (fun _ => false)], e.isReset = false) ∧
    ((audioOutRun 7 14 ⟨[⟨"a", "t", 0, 1, true, false⟩], 0⟩
        [AudioOutEvent.tick 10 (fun _ => false)]).mediaSequenceNumber
      = 0 + totalAged 7 14 ⟨[⟨"a", "t", 0, 1, true, false⟩], 0⟩
          [AudioOutEvent.tick 10 (fun _ => false)] ∧
     0 ≤ (audioOutRun 7 14 ⟨[⟨"a", "t", 0, 1, true, false⟩], 0⟩
        [AudioOutEvent.tick 10 (fun _ => false)]).mediaSequenceNumber ∧
     (audioOutStep 7 14 ⟨[⟨"a", "t", 0, 1, true, false⟩], 0⟩
        (.reset (fun _ => true))).mediaSequenceNumber = 0) :=
  ⟨by simp [AudioOutEvent.isReset],
   mediaSequenceNumber_spec 7 14 ⟨[⟨"a", "t", 0, 1, true, false⟩], 0⟩
     [AudioOutEvent.tick 10 (fun _ => false)] (fun _ => true)
     (by simp [AudioOutEvent.isReset])⟩

end IocServer

